import Mathlib

/-!
# Verification of the boid flocking simulation

Shallow embedding of `src/Boid.ts` together with the render-loop driver of
`src/index.ts`.  Numbers are modelled by the exact reals, idealizing the
source's IEEE doubles (`0.5`, `0.13`, … become the corresponding rationals).
The three.js vector and quaternion methods the source calls (`normalize`,
`setLength`, `clampLength`, `divideScalar`, `distanceTo`, `setFromUnitVectors`)
are embedded from their three.js implementations, including the `length || 1`
guard inside `normalize` / `clampLength` and the zero-length guard inside
`Quaternion.normalize`.  JS object identity (`other !== this`) is modelled by a
numeric `id` field, unique per boid.  In-place mutation of a boid becomes a
returned updated record; mutation of the shared `boids` array inside the render
loop becomes `List.set`.  The static mutable bounds `Boid.BOUNDS_MIN` /
`Boid.BOUNDS_MAX` become explicit `bmin` / `bmax` parameters.
-/

noncomputable section

/-! ## Definitions: the embedded data model and operations -/

structure Vec3 where
  x : ℝ
  y : ℝ
  z : ℝ

structure Quat where
  x : ℝ
  y : ℝ
  z : ℝ
  w : ℝ

instance : DecidableEq Vec3 := Classical.decEq _

instance : DecidableEq Quat := Classical.decEq _

/-- `Boid.MAX_SPEED = 0.5` -/
def MAX_SPEED : ℝ := 1 / 2

/-- `Boid.MAX_FORCE = 0.13` -/
def MAX_FORCE : ℝ := 13 / 100

/-- `Boid.NEIGHBOR_DIST = 5` -/
def NEIGHBOR_DIST : ℝ := 5

/-- `Boid.DESIRED_SEPARATION = 4` -/
def DESIRED_SEPARATION : ℝ := 4

/-- three.js `Vector3.add` -/
def Vec3.add (a b : Vec3) : Vec3 := ⟨a.x + b.x, a.y + b.y, a.z + b.z⟩

/-- three.js `Vector3.sub` / `subVectors` -/
def Vec3.sub (a b : Vec3) : Vec3 := ⟨a.x - b.x, a.y - b.y, a.z - b.z⟩

/-- three.js `Vector3.multiplyScalar` -/
def Vec3.multiplyScalar (v : Vec3) (s : ℝ) : Vec3 := ⟨v.x * s, v.y * s, v.z * s⟩

/-- three.js `Vector3.divideScalar(s)`, defined there as `multiplyScalar(1/s)` -/
def Vec3.divideScalar (v : Vec3) (s : ℝ) : Vec3 := v.multiplyScalar (1 / s)

/-- three.js `Vector3.dot` -/
def Vec3.dot (a b : Vec3) : ℝ := a.x * b.x + a.y * b.y + a.z * b.z

/-- three.js `Vector3.lengthSq` -/
def Vec3.lengthSq (v : Vec3) : ℝ := v.x * v.x + v.y * v.y + v.z * v.z

/-- three.js `Vector3.length` -/
def Vec3.length (v : Vec3) : ℝ := Real.sqrt v.lengthSq

/-- three.js `Vector3.distanceTo` -/
def Vec3.distanceTo (a b : Vec3) : ℝ := (a.sub b).length

/-- three.js `Vector3.normalize`: `divideScalar(this.length() || 1)` -/
def Vec3.normalize (v : Vec3) : Vec3 :=
  v.divideScalar (if v.length = 0 then 1 else v.length)

/-- three.js `Vector3.setLength(l)`: `normalize().multiplyScalar(l)` -/
def Vec3.setLength (v : Vec3) (l : ℝ) : Vec3 := v.normalize.multiplyScalar l

/-- three.js `Vector3.clampLength(lo, hi)`:
`divideScalar(length || 1).multiplyScalar(max(lo, min(hi, length)))` -/
def Vec3.clampLength (v : Vec3) (lo hi : ℝ) : Vec3 :=
  (v.divideScalar (if v.length = 0 then 1 else v.length)).multiplyScalar
    (max lo (min hi v.length))

def vzero : Vec3 := ⟨0, 0, 0⟩

/-- `Number.EPSILON = 2⁻⁵²` -/
def numEPSILON : ℝ := 1 / 2 ^ 52

/-- three.js `Quaternion.normalize`: length-zero input becomes the identity
quaternion, otherwise every component is divided by the length. -/
def Quat.normalize (q : Quat) : Quat :=
  let l := Real.sqrt (q.x * q.x + q.y * q.y + q.z * q.z + q.w * q.w)
  if l = 0 then ⟨0, 0, 0, 1⟩ else ⟨q.x / l, q.y / l, q.z / l, q.w / l⟩

/-- three.js `Quaternion.setFromUnitVectors(vFrom, vTo)`. -/
def Quat.setFromUnitVectors (vFrom vTo : Vec3) : Quat :=
  let r := vFrom.dot vTo + 1
  let q : Quat :=
    if r < numEPSILON then
      if |vFrom.x| > |vFrom.z| then ⟨-vFrom.y, vFrom.x, 0, 0⟩
      else ⟨0, -vFrom.z, vFrom.y, 0⟩
    else
      ⟨vFrom.y * vTo.z - vFrom.z * vTo.y,
       vFrom.z * vTo.x - vFrom.x * vTo.z,
       vFrom.x * vTo.y - vFrom.y * vTo.x, r⟩
  q.normalize

def idQuat : Quat := ⟨0, 0, 0, 1⟩

/-- One boid.  `id` models JS object identity; `quat` is the mesh quaternion
(the renderer-facing orientation); `mesh.position` is always a copy of
`position` and is not duplicated here. -/
structure Boid where
  id : ℕ
  position : Vec3
  velocity : Vec3
  acceleration : Vec3
  quat : Quat

def boidDefault : Boid := ⟨0, vzero, vzero, vzero, idQuat⟩

/-- `Boid.applyForce` -/
def applyForce (b : Boid) (force : Vec3) : Boid :=
  { b with acceleration := b.acceleration.add force }

/-- The loop body of `Boid.separation`: accumulates
`subVectors(this.position, other.position).normalize().divideScalar(d)` and the
neighbor count for every other boid strictly within `DESIRED_SEPARATION`. -/
def sepStep (b : Boid) (sc : Vec3 × ℕ) (other : Boid) : Vec3 × ℕ :=
  let d := b.position.distanceTo other.position
  if other.id ≠ b.id ∧ d < DESIRED_SEPARATION then
    (sc.1.add (((b.position.sub other.position).normalize).divideScalar d), sc.2 + 1)
  else sc

/-- `Boid.separation` -/
def separation (b : Boid) (boids : List Boid) : Vec3 :=
  let acc := boids.foldl (sepStep b) (vzero, 0)
  let steer := if 0 < acc.2 then acc.1.divideScalar (acc.2 : ℝ) else acc.1
  if 0 < steer.length then
    ((steer.setLength MAX_SPEED).sub b.velocity).clampLength 0 MAX_FORCE
  else steer

/-- `Boid.alignment` -/
def alignment (b : Boid) (boids : List Boid) : Vec3 :=
  let acc := boids.foldl
    (fun (sc : Vec3 × ℕ) other =>
      let d := b.position.distanceTo other.position
      if other.id ≠ b.id ∧ d < NEIGHBOR_DIST then (sc.1.add other.velocity, sc.2 + 1)
      else sc)
    (vzero, 0)
  if acc.2 = 0 then vzero
  else
    (((acc.1.divideScalar (acc.2 : ℝ)).setLength MAX_SPEED).sub b.velocity).clampLength
      0 MAX_FORCE

/-- `Boid.seek` -/
def seek (b : Boid) (target : Vec3) : Vec3 :=
  (((target.sub b.position).setLength MAX_SPEED).sub b.velocity).clampLength 0 MAX_FORCE

/-- `Boid.cohesion` -/
def cohesion (b : Boid) (boids : List Boid) : Vec3 :=
  let acc := boids.foldl
    (fun (sc : Vec3 × ℕ) other =>
      let d := b.position.distanceTo other.position
      if other.id ≠ b.id ∧ d < NEIGHBOR_DIST then (sc.1.add other.position, sc.2 + 1)
      else sc)
    (vzero, 0)
  if acc.2 = 0 then vzero else seek b (acc.1.divideScalar (acc.2 : ℝ))

/-- `Boid.flock`: three `applyForce` calls with weights 1.5, 1.0, 1.0. -/
def flock (b : Boid) (boids : List Boid) : Boid :=
  applyForce
    (applyForce (applyForce b ((separation b boids).multiplyScalar (3 / 2)))
      ((alignment b boids).multiplyScalar 1))
    ((cohesion b boids).multiplyScalar 1)

/-- One axis of the reflect ("bounce") boundary policy of `Boid.update`: two
sequential `if`s, the second reading the position the first may have written. -/
def reflectAxis (mn mx p v : ℝ) : ℝ × ℝ :=
  let a := if p > mx then (mx, -v) else (p, v)
  if a.1 < mn then (mn, -a.2) else a

/-- One axis of the wrap boundary policy of `Boid.updateWithWrap`: two
sequential `if`s, the second reading the possibly rewritten position. -/
def wrapAxis (mn mx p : ℝ) : ℝ :=
  let p1 := if p > mx then mn else p
  if p1 < mn then mx else p1

/-- `Boid.update` (reflect policy). -/
def update (bmin bmax : Vec3) (b : Boid) : Boid :=
  let vel1 := (b.velocity.add b.acceleration).clampLength 0 MAX_SPEED
  let pos1 := b.position.add vel1
  let rx := reflectAxis bmin.x bmax.x pos1.x vel1.x
  let ry := reflectAxis bmin.y bmax.y pos1.y vel1.y
  let rz := reflectAxis bmin.z bmax.z pos1.z vel1.z
  let vel2 : Vec3 := ⟨rx.2, ry.2, rz.2⟩
  { b with
    position := ⟨rx.1, ry.1, rz.1⟩
    velocity := vel2
    acceleration := vzero
    quat := Quat.setFromUnitVectors ⟨0, 1, 0⟩ vel2.normalize }

/-- `Boid.updateWithWrap` (wrap policy). -/
def updateWithWrap (bmin bmax : Vec3) (b : Boid) : Boid :=
  let vel1 := (b.velocity.add b.acceleration).clampLength 0 MAX_SPEED
  let pos1 := b.position.add vel1
  { b with
    position :=
      ⟨wrapAxis bmin.x bmax.x pos1.x, wrapAxis bmin.y bmax.y pos1.y,
       wrapAxis bmin.z bmax.z pos1.z⟩
    velocity := vel1
    acceleration := vzero
    quat := Quat.setFromUnitVectors ⟨0, 1, 0⟩ vel1.normalize }

/-- The per-frame loop of `index.ts` `animate` (no pointer target):
`for (const boid of boids) { boid.flock(boids); boid.update(); }`.
The array holds object references, so a later iteration reads the fields the
earlier iterations already mutated; `List.set` models that in-place mutation. -/
def tick (bmin bmax : Vec3) (bs : List Boid) : List Boid :=
  (List.range bs.length).foldl
    (fun arr i => arr.set i (update bmin bmax (flock (arr.getD i boidDefault) arr)))
    bs

/-- Sequential characterization of `tick`: `done` is the already-updated prefix,
`todo` the untouched suffix; the boid being processed reads `done ++ todo`. -/
def tickGo (bmin bmax : Vec3) (done todo : List Boid) : List Boid :=
  match todo with
  | [] => done
  | b :: rest =>
      tickGo bmin bmax (done ++ [update bmin bmax (flock b (done ++ b :: rest))]) rest

/-- Modelled from the spec: the two-phase tick the spec describes — "accumulate
forces across the whole population using pre-update state, then integrate":
every boid's forces are computed against the original, start-of-tick list, and
only afterwards is every boid integrated. -/
def twoPhaseTickSpec (bmin bmax : Vec3) (bs : List Boid) : List Boid :=
  (bs.map (fun b => flock b bs)).map (update bmin bmax)

/-- Proof helper: the x-axis vector `(a, 0, 0)`. -/
def ax (a : ℝ) : Vec3 := ⟨a, 0, 0⟩

/-- The component membership predicate of the spec's position invariant. -/
def inClosed (lo hi p : ℝ) : Prop := lo ≤ p ∧ p ≤ hi

/-- `b`'s position lies inside the axis-aligned box `[bmin, bmax]`. -/
def posInBounds (bmin bmax : Vec3) (b : Boid) : Prop :=
  inClosed bmin.x bmax.x b.position.x ∧ inClosed bmin.y bmax.y b.position.y ∧
    inClosed bmin.z bmax.z b.position.z

def bounds25min : Vec3 := ⟨-25, -25, -25⟩

def bounds25max : Vec3 := ⟨25, 25, 25⟩

def exA : Boid := ⟨0, ax 0, ax 0, ax 0, idQuat⟩

def exB : Boid := ⟨1, ax 2, ax 0, ax 0, idQuat⟩

def exAf : Boid := ⟨0, ax 0, ax 0, ax (-(13/200)), idQuat⟩

def exBf : Boid := ⟨1, ax 2, ax 0, ax (-(13/200)), idQuat⟩

def exBg : Boid := ⟨1, ax 2, ax 0, ax (13/200), idQuat⟩

/-- Sum of a list of vectors (proof helper for stating accumulated forces). -/
def vsum (l : List Vec3) : Vec3 := l.foldr Vec3.add vzero

/-- The separation neighborhood test of the claim and the source: another
object (`id` differs) strictly within `DESIRED_SEPARATION`. -/
def sepQualify (b o : Boid) : Bool :=
  decide (o.id ≠ b.id ∧ b.position.distanceTo o.position < DESIRED_SEPARATION)

/-- Written from the spec's words "the result's magnitude is clamped to
`[0, MAX_FORCE]`": scale down to magnitude `m` when longer than `m`. -/
def clampMagSpec (w : Vec3) (m : ℝ) : Vec3 :=
  if m < w.length then w.multiplyScalar (m / w.length) else w

/-- Written from the spec's words "rescaled to `MAX_SPEED`". -/
def rescaleSpec (w : Vec3) (m : ℝ) : Vec3 := (w.divideScalar w.length).multiplyScalar m

/-- C4's literal per-neighbor formula, written from the claim's words: for
every qualifying neighbor accumulate `(self.position - other.position) /
distance`, average by neighbor count, and if the average is non-zero rescale it
to `MAX_SPEED`, subtract the current velocity and clamp the magnitude to
`[0, MAX_FORCE]`; zero when no neighbor qualifies. -/
def separationClaimedSpec (b : Boid) (boids : List Boid) : Vec3 :=
  let ns := boids.filter (sepQualify b)
  if ns.isEmpty then vzero
  else
    let avg := (vsum (ns.map (fun o =>
        (b.position.sub o.position).divideScalar
          (b.position.distanceTo o.position)))).divideScalar (ns.length : ℝ)
    if avg = vzero then avg
    else clampMagSpec ((rescaleSpec avg MAX_SPEED).sub b.velocity) MAX_FORCE

/-- The amended C4 formula: identical to `separationClaimedSpec` except that
the per-neighbor term divides by the *square* of the distance — the unit
repulsion direction weighted by `1/distance`, which is what
`normalize().divideScalar(d)` computes. -/
def separationInvDistSpec (b : Boid) (boids : List Boid) : Vec3 :=
  let ns := boids.filter (sepQualify b)
  if ns.isEmpty then vzero
  else
    let avg := (vsum (ns.map (fun o =>
        (b.position.sub o.position).divideScalar
          (b.position.distanceTo o.position ^ 2)))).divideScalar (ns.length : ℝ)
    if avg = vzero then avg
    else clampMagSpec ((rescaleSpec avg MAX_SPEED).sub b.velocity) MAX_FORCE

def exE : Boid := ⟨2, ax (-1), ax 0, ax 0, idQuat⟩

/-- A distinct boid coincident with `exA` (same position, different identity). -/
def exF : Boid := ⟨1, ax 0, ax 0, ax 0, idQuat⟩

/-- `sepStep` with the division visible: in the source, a qualifying neighbor
at distance exactly `0` makes `divideScalar(d)` multiply by `1/0 = Infinity`,
and `0 * Infinity` yields `NaN` components in IEEE arithmetic.  `none` marks
exactly those executions; otherwise the step is `sepStep`. -/
def sepStepChecked (b : Boid) (sc : Option (Vec3 × ℕ)) (other : Boid) :
    Option (Vec3 × ℕ) :=
  match sc with
  | none => none
  | some (s, c) =>
      let d := b.position.distanceTo other.position
      if other.id ≠ b.id ∧ d < DESIRED_SEPARATION then
        if d = 0 then none
        else
          some (s.add (((b.position.sub other.position).normalize).divideScalar d),
            c + 1)
      else some (s, c)

/-- `Boid.separation` instrumented for definedness: `none` exactly when the
source's per-neighbor `divideScalar(d)` runs with `d = 0` and the resulting
non-finite components would propagate into the returned steering vector
(`NaN` survives the averaging, the `length() > 0` test — false for `NaN` — and
the early return). -/
def separationChecked (b : Boid) (boids : List Boid) : Option Vec3 :=
  match boids.foldl (sepStepChecked b) (some (vzero, 0)) with
  | none => none
  | some acc =>
      let steer := if 0 < acc.2 then acc.1.divideScalar (acc.2 : ℝ) else acc.1
      some
        (if 0 < steer.length then
          ((steer.setLength MAX_SPEED).sub b.velocity).clampLength 0 MAX_FORCE
        else steer)

/-- A resting boid whose mesh carries a non-identity orientation (a half-turn
about the x-axis) from an earlier frame. -/
def exQ : Boid := ⟨0, ax 0, ax 0, ax 0, Quat.mk 1 0 0 0⟩

/-- Modelled from the spec: `avoidObstacles` is invoked by the render loop
(`boid.avoidObstacles([hoop.position])` in `index.ts`) but its definition is
absent from the provided sources.  Per the spec it takes a sequence of obstacle
centers and, for each center within a fixed avoidance radius, applies a
repulsive force directed away from the obstacle straight into `acceleration`
(via `applyForce`, so already-accumulated forces are kept); `radius` and
`strength` stand for the spec's tunable constants. -/
def avoidObstacles (radius strength : ℝ) (b : Boid) (centers : List Vec3) : Boid :=
  centers.foldl
    (fun bb c =>
      if bb.position.distanceTo c < radius then
        applyForce bb ((bb.position.sub c).normalize.multiplyScalar strength)
      else bb)
    b

/-- `THREE.MathUtils.lerp(x, y, t) = (1 - t) * x + t * y` -/
def lerp (x y t : ℝ) : ℝ := (1 - t) * x + t * y

/-- The `Boid` constructor as a function of the six `Math.random()` draws
(`r1..r3` for the position lerps, `r4..r6` for the velocity direction); `i`
models the identity of the freshly allocated object, and the fresh
`THREE.Mesh` quaternion starts as the identity. -/
def boidNew (bmin bmax : Vec3) (i : ℕ) (r1 r2 r3 r4 r5 r6 : ℝ) : Boid :=
  { id := i
    position := ⟨lerp bmin.x bmax.x r1, lerp bmin.y bmax.y r2, lerp bmin.z bmax.z r3⟩
    velocity :=
      (Vec3.mk (r4 - 1 / 2) (r5 - 1 / 2) (r6 - 1 / 2)).normalize.multiplyScalar
        MAX_SPEED
    acceleration := vzero
    quat := idQuat }

/-! ## Lemmas and claim theorems -/

lemma Vec3.eq_of (a b : Vec3) (hx : a.x = b.x) (hy : a.y = b.y) (hz : a.z = b.z) :
    a = b := by
  cases a; cases b; simp_all

lemma Vec3.lengthSq_nonneg (v : Vec3) : 0 ≤ v.lengthSq := by
  have hx := mul_self_nonneg v.x
  have hy := mul_self_nonneg v.y
  have hz := mul_self_nonneg v.z
  unfold Vec3.lengthSq
  linarith

lemma Vec3.length_nonneg (v : Vec3) : 0 ≤ v.length := Real.sqrt_nonneg _

lemma Vec3.length_eq_zero_iff (v : Vec3) : v.length = 0 ↔ v = vzero := by
  unfold Vec3.length
  rw [Real.sqrt_eq_zero (Vec3.lengthSq_nonneg v)]
  constructor
  · intro h
    have hx := mul_self_nonneg v.x
    have hy := mul_self_nonneg v.y
    have hz := mul_self_nonneg v.z
    unfold Vec3.lengthSq at h
    refine Vec3.eq_of _ _ ?_ ?_ ?_ <;> simp only [vzero] <;> nlinarith
  · intro h
    rw [h]
    unfold vzero Vec3.lengthSq
    ring

lemma Vec3.length_multiplyScalar (v : Vec3) (s : ℝ) :
    (v.multiplyScalar s).length = |s| * v.length := by
  unfold Vec3.length
  have h : (v.multiplyScalar s).lengthSq = s ^ 2 * v.lengthSq := by
    unfold Vec3.multiplyScalar Vec3.lengthSq
    ring
  rw [h, Real.sqrt_mul (sq_nonneg s), Real.sqrt_sq_eq_abs]

lemma Vec3.length_clampLength_le (v : Vec3) {hi : ℝ} (h : 0 ≤ hi) :
    (v.clampLength 0 hi).length ≤ hi := by
  unfold Vec3.clampLength Vec3.divideScalar
  by_cases h0 : v.length = 0
  · rw [if_pos h0, h0]
    have hmin : min hi 0 = 0 := min_eq_right h
    rw [hmin, max_self]
    rw [Vec3.length_multiplyScalar]
    simp [h]
  · rw [if_neg h0]
    have hl : 0 < v.length := lt_of_le_of_ne (Vec3.length_nonneg v) (Ne.symm h0)
    rw [Vec3.length_multiplyScalar, Vec3.length_multiplyScalar]
    have h1 : |1 / v.length| = 1 / v.length := abs_of_pos (by positivity)
    have hc : 0 ≤ max 0 (min hi v.length) := le_max_left _ _
    rw [h1, abs_of_nonneg hc]
    have hone : 1 / v.length * v.length = 1 := by field_simp
    rw [hone, mul_one]
    exact max_le h (min_le_left _ _)

lemma Vec3.clampLength_eq_self (v : Vec3) {lo hi : ℝ} (h1 : lo ≤ v.length)
    (h2 : v.length ≤ hi) : v.clampLength lo hi = v := by
  unfold Vec3.clampLength Vec3.divideScalar
  by_cases h0 : v.length = 0
  · have hv : v = vzero := (Vec3.length_eq_zero_iff v).1 h0
    rw [if_pos h0, hv]
    unfold vzero Vec3.multiplyScalar
    simp
  · rw [if_neg h0]
    have hclamp : max lo (min hi v.length) = v.length := by
      rw [min_eq_right h2, max_eq_right h1]
    rw [hclamp]
    unfold Vec3.multiplyScalar
    refine Vec3.eq_of _ _ ?_ ?_ ?_ <;> · simp only; field_simp

lemma vzero_eq_ax : vzero = ax 0 := rfl

lemma ax_add (a b : ℝ) : (ax a).add (ax b) = ax (a + b) := by
  unfold ax Vec3.add; simp

lemma ax_sub (a b : ℝ) : (ax a).sub (ax b) = ax (a - b) := by
  unfold ax Vec3.sub; simp

lemma ax_mul (a s : ℝ) : (ax a).multiplyScalar s = ax (a * s) := by
  unfold ax Vec3.multiplyScalar; simp

lemma ax_div (a s : ℝ) : (ax a).divideScalar s = ax (a / s) := by
  unfold Vec3.divideScalar
  rw [ax_mul, mul_one_div]

lemma ax_length (a : ℝ) : (ax a).length = |a| := by
  unfold Vec3.length
  have h : (ax a).lengthSq = a ^ 2 := by unfold ax Vec3.lengthSq; ring
  rw [h, Real.sqrt_sq_eq_abs]

lemma ax_distanceTo (a b : ℝ) : (ax a).distanceTo (ax b) = |a - b| := by
  unfold Vec3.distanceTo
  rw [ax_sub, ax_length]

lemma ax_normalize {a : ℝ} (h : a ≠ 0) : (ax a).normalize = ax (a / |a|) := by
  unfold Vec3.normalize
  rw [ax_length, if_neg (abs_ne_zero.2 h), ax_div]

lemma ax_normalize_zero : (ax 0).normalize = ax 0 := by
  unfold Vec3.normalize
  rw [ax_length, abs_zero, if_pos rfl, ax_div]
  norm_num

lemma ax_setLength {a : ℝ} (h : a ≠ 0) (l : ℝ) :
    (ax a).setLength l = ax (a / |a| * l) := by
  unfold Vec3.setLength
  rw [ax_normalize h, ax_mul]

lemma ax_setLength_zero (l : ℝ) : (ax 0).setLength l = ax 0 := by
  unfold Vec3.setLength
  rw [ax_normalize_zero, ax_mul, zero_mul]

lemma ax_clampLength {a : ℝ} (h : a ≠ 0) (lo hi : ℝ) :
    (ax a).clampLength lo hi = ax (a / |a| * max lo (min hi |a|)) := by
  unfold Vec3.clampLength
  rw [ax_length, if_neg (abs_ne_zero.2 h), ax_div, ax_mul]

lemma ax_clampLength_zero (lo hi : ℝ) :
    (ax 0).clampLength lo hi = ax (0 * max lo (min hi 0)) := by
  unfold Vec3.clampLength
  rw [ax_length, abs_zero, if_pos rfl, ax_div, ax_mul]
  norm_num

lemma reflectAxis_fst_mem {mn mx : ℝ} (h : mn ≤ mx) (p v : ℝ) :
    mn ≤ (reflectAxis mn mx p v).1 ∧ (reflectAxis mn mx p v).1 ≤ mx := by
  simp only [reflectAxis]
  split_ifs <;> constructor <;> simp_all

lemma reflectAxis_snd_sq (mn mx p v : ℝ) :
    ((reflectAxis mn mx p v).2) ^ 2 = v ^ 2 := by
  simp only [reflectAxis]
  split_ifs <;> ring

lemma wrapAxis_mem {mn mx : ℝ} (h : mn ≤ mx) (p : ℝ) :
    mn ≤ wrapAxis mn mx p ∧ wrapAxis mn mx p ≤ mx := by
  simp only [wrapAxis]
  split_ifs <;> constructor <;> simp_all

lemma Vec3.lengthSq_eq (v : Vec3) : v.lengthSq = v.x ^ 2 + v.y ^ 2 + v.z ^ 2 := by
  unfold Vec3.lengthSq
  ring

/-- C2: at the end of every `update` (reflect policy) and every `updateWithWrap`
(wrap policy), each component of the position lies within the closed interval
`[bmin, bmax]` on its axis, for every starting state, given well-formed bounds. -/
theorem update_position_in_bounds (bmin bmax : Vec3) (b : Boid)
    (hx : bmin.x ≤ bmax.x) (hy : bmin.y ≤ bmax.y) (hz : bmin.z ≤ bmax.z) :
    posInBounds bmin bmax (update bmin bmax b) ∧
      posInBounds bmin bmax (updateWithWrap bmin bmax b) := by
  constructor
  · unfold posInBounds inClosed update
    dsimp only
    exact ⟨reflectAxis_fst_mem hx _ _, reflectAxis_fst_mem hy _ _,
      reflectAxis_fst_mem hz _ _⟩
  · unfold posInBounds inClosed updateWithWrap
    dsimp only
    exact ⟨wrapAxis_mem hx _, wrapAxis_mem hy _, wrapAxis_mem hz _⟩

theorem update_position_in_bounds_witness :
    (bounds25min.x ≤ bounds25max.x ∧ bounds25min.y ≤ bounds25max.y ∧
      bounds25min.z ≤ bounds25max.z) ∧
    (posInBounds bounds25min bounds25max (update bounds25min bounds25max boidDefault) ∧
      posInBounds bounds25min bounds25max
        (updateWithWrap bounds25min bounds25max boidDefault)) :=
  ⟨⟨by norm_num [bounds25min, bounds25max], by norm_num [bounds25min, bounds25max],
      by norm_num [bounds25min, bounds25max]⟩,
    update_position_in_bounds bounds25min bounds25max boidDefault
      (by norm_num [bounds25min, bounds25max])
      (by norm_num [bounds25min, bounds25max])
      (by norm_num [bounds25min, bounds25max])⟩

/-- C3: immediately after any `update` or `updateWithWrap`, the magnitude of the
velocity is at most `MAX_SPEED`: the clamp-then-integrate step bounds it, the
reflect policy's per-axis negations preserve it, and the wrap policy leaves the
velocity untouched. -/
theorem update_speed_le_maxSpeed (bmin bmax : Vec3) (b : Boid) :
    (update bmin bmax b).velocity.length ≤ MAX_SPEED ∧
      (updateWithWrap bmin bmax b).velocity.length ≤ MAX_SPEED := by
  have hM : (0 : ℝ) ≤ MAX_SPEED := by norm_num [MAX_SPEED]
  have hclamp :
      ((b.velocity.add b.acceleration).clampLength 0 MAX_SPEED).length ≤ MAX_SPEED :=
    Vec3.length_clampLength_le _ hM
  constructor
  · unfold update
    dsimp only
    set w := (b.velocity.add b.acceleration).clampLength 0 MAX_SPEED with hw
    have hsq :
        (Vec3.mk (reflectAxis bmin.x bmax.x (b.position.add w).x w.x).2
            (reflectAxis bmin.y bmax.y (b.position.add w).y w.y).2
            (reflectAxis bmin.z bmax.z (b.position.add w).z w.z).2).lengthSq =
          w.lengthSq := by
      rw [Vec3.lengthSq_eq, Vec3.lengthSq_eq]
      rw [reflectAxis_snd_sq, reflectAxis_snd_sq, reflectAxis_snd_sq]
    unfold Vec3.length
    rw [hsq]
    exact hclamp
  · unfold updateWithWrap
    dsimp only
    exact hclamp

/-- C5: `seek` always returns a steering vector of magnitude at most
`MAX_FORCE`, including the degenerate case `target = position` (the guarded
`setLength` turns the zero difference into the zero vector, and the final
`clampLength` bounds whatever remains). -/
theorem seek_norm_le_maxForce (b : Boid) (target : Vec3) :
    (seek b target).length ≤ MAX_FORCE := by
  unfold seek
  exact Vec3.length_clampLength_le _ (by norm_num [MAX_FORCE])

/-- C9: `flock` changes only the calling boid's acceleration, adding
`1.5 · separation + 1.0 · alignment + 1.0 · cohesion`; its position, velocity,
identity and orientation are untouched (the query behaviors are pure functions
of the states they read). -/
theorem flock_frame (b : Boid) (bs : List Boid) :
    (flock b bs).id = b.id ∧ (flock b bs).position = b.position ∧
      (flock b bs).velocity = b.velocity ∧ (flock b bs).quat = b.quat ∧
      (flock b bs).acceleration =
        b.acceleration.add
          (((separation b bs).multiplyScalar (3 / 2)).add
            (((alignment b bs).multiplyScalar 1).add
              ((cohesion b bs).multiplyScalar 1))) := by
  unfold flock applyForce
  dsimp only
  refine ⟨rfl, rfl, rfl, rfl, ?_⟩
  unfold Vec3.add
  refine Vec3.eq_of _ _ ?_ ?_ ?_ <;> · dsimp only; ring

lemma c1_sep_A : separation exA [exA, exB] = ax (-(13/100)) := by
  unfold separation sepStep
  simp only [List.foldl_cons, List.foldl_nil]
  norm_num [exA, exB, ax_distanceTo, ax_sub, ax_add, ax_mul, ax_div, ax_length,
    ax_normalize, ax_setLength, ax_clampLength, vzero_eq_ax, DESIRED_SEPARATION,
    MAX_SPEED, MAX_FORCE, abs_of_nonneg, abs_of_pos, abs_neg]

lemma c1_align_A : alignment exA [exA, exB] = ax 0 := by
  unfold alignment
  simp only [List.foldl_cons, List.foldl_nil]
  norm_num [exA, exB, ax_distanceTo, ax_sub, ax_add, ax_mul, ax_div, ax_length,
    ax_normalize, ax_setLength, ax_setLength_zero, ax_clampLength, ax_clampLength_zero,
    vzero_eq_ax, NEIGHBOR_DIST, MAX_SPEED, MAX_FORCE, abs_of_nonneg, abs_of_pos, abs_neg]

lemma c1_coh_A : cohesion exA [exA, exB] = ax (13/100) := by
  unfold cohesion seek
  simp only [List.foldl_cons, List.foldl_nil]
  norm_num [exA, exB, ax_distanceTo, ax_sub, ax_add, ax_mul, ax_div, ax_length,
    ax_normalize, ax_setLength, ax_clampLength, vzero_eq_ax, NEIGHBOR_DIST,
    MAX_SPEED, MAX_FORCE, abs_of_nonneg, abs_of_pos, abs_neg]

lemma c1_flock_A : flock exA [exA, exB] = exAf := by
  unfold flock applyForce
  rw [c1_sep_A, c1_align_A, c1_coh_A]
  norm_num [exA, exAf, ax_add, ax_mul]

lemma c1_upA_clamp :
    (exAf.velocity.add exAf.acceleration).clampLength 0 MAX_SPEED = ax (-(13/200)) := by
  norm_num [exAf, ax_add, ax_clampLength, MAX_SPEED, abs_neg, abs_of_nonneg]

lemma c1_upA_pos :
    (update bounds25min bounds25max exAf).position = ax (-(13/200)) := by
  unfold update
  dsimp only
  rw [c1_upA_clamp]
  norm_num [exAf, bounds25min, bounds25max, reflectAxis, ax_add, ax, Vec3.add]

lemma c1_upA_vel :
    (update bounds25min bounds25max exAf).velocity = ax (-(13/200)) := by
  unfold update
  dsimp only
  rw [c1_upA_clamp]
  norm_num [exAf, bounds25min, bounds25max, reflectAxis, ax_add, ax, Vec3.add]

lemma c1_upA_id : (update bounds25min bounds25max exAf).id = 0 := by
  unfold update
  dsimp only
  norm_num [exAf]

lemma c1_sep_B :
    separation exB [update bounds25min bounds25max exAf, exB] = ax (13/100) := by
  unfold separation sepStep
  simp only [List.foldl_cons, List.foldl_nil, c1_upA_pos, c1_upA_vel, c1_upA_id]
  norm_num [exB, ax_distanceTo, ax_sub, ax_add, ax_mul, ax_div, ax_length,
    ax_normalize, ax_setLength, ax_clampLength, vzero_eq_ax, DESIRED_SEPARATION,
    MAX_SPEED, MAX_FORCE, abs_of_nonneg, abs_of_pos, abs_neg]

lemma c1_align_B :
    alignment exB [update bounds25min bounds25max exAf, exB] = ax (-(13/100)) := by
  unfold alignment
  simp only [List.foldl_cons, List.foldl_nil, c1_upA_pos, c1_upA_vel, c1_upA_id]
  norm_num [exB, ax_distanceTo, ax_sub, ax_add, ax_mul, ax_div, ax_length,
    ax_normalize, ax_setLength, ax_clampLength, vzero_eq_ax, NEIGHBOR_DIST,
    MAX_SPEED, MAX_FORCE, abs_of_nonneg, abs_of_pos, abs_neg]

lemma c1_coh_B :
    cohesion exB [update bounds25min bounds25max exAf, exB] = ax (-(13/100)) := by
  unfold cohesion seek
  simp only [List.foldl_cons, List.foldl_nil, c1_upA_pos, c1_upA_vel, c1_upA_id]
  norm_num [exB, ax_distanceTo, ax_sub, ax_add, ax_mul, ax_div, ax_length,
    ax_normalize, ax_setLength, ax_clampLength, vzero_eq_ax, NEIGHBOR_DIST,
    MAX_SPEED, MAX_FORCE, abs_of_nonneg, abs_of_pos, abs_neg]

lemma c1_flock_B :
    flock exB [update bounds25min bounds25max exAf, exB] = exBf := by
  unfold flock applyForce
  rw [c1_sep_B, c1_align_B, c1_coh_B]
  norm_num [exB, exBf, ax_add, ax_mul]

lemma c1_upB_clamp :
    (exBf.velocity.add exBf.acceleration).clampLength 0 MAX_SPEED = ax (-(13/200)) := by
  norm_num [exBf, ax_add, ax_clampLength, MAX_SPEED, abs_neg, abs_of_nonneg]

lemma c1_upB_pos :
    (update bounds25min bounds25max exBf).position = ax (387/200) := by
  unfold update
  dsimp only
  rw [c1_upB_clamp]
  norm_num [exBf, bounds25min, bounds25max, reflectAxis, ax_add, ax, Vec3.add]

lemma c1_sep_B0 : separation exB [exA, exB] = ax (13/100) := by
  unfold separation sepStep
  simp only [List.foldl_cons, List.foldl_nil]
  norm_num [exA, exB, ax_distanceTo, ax_sub, ax_add, ax_mul, ax_div, ax_length,
    ax_normalize, ax_setLength, ax_clampLength, vzero_eq_ax, DESIRED_SEPARATION,
    MAX_SPEED, MAX_FORCE, abs_of_nonneg, abs_of_pos, abs_neg]

lemma c1_align_B0 : alignment exB [exA, exB] = ax 0 := by
  unfold alignment
  simp only [List.foldl_cons, List.foldl_nil]
  norm_num [exA, exB, ax_distanceTo, ax_sub, ax_add, ax_mul, ax_div, ax_length,
    ax_normalize, ax_setLength, ax_setLength_zero, ax_clampLength, ax_clampLength_zero,
    vzero_eq_ax, NEIGHBOR_DIST, MAX_SPEED, MAX_FORCE, abs_of_nonneg, abs_of_pos, abs_neg]

lemma c1_coh_B0 : cohesion exB [exA, exB] = ax (-(13/100)) := by
  unfold cohesion seek
  simp only [List.foldl_cons, List.foldl_nil]
  norm_num [exA, exB, ax_distanceTo, ax_sub, ax_add, ax_mul, ax_div, ax_length,
    ax_normalize, ax_setLength, ax_clampLength, vzero_eq_ax, NEIGHBOR_DIST,
    MAX_SPEED, MAX_FORCE, abs_of_nonneg, abs_of_pos, abs_neg]

lemma c1_flock_B0 : flock exB [exA, exB] = exBg := by
  unfold flock applyForce
  rw [c1_sep_B0, c1_align_B0, c1_coh_B0]
  norm_num [exB, exBg, ax_add, ax_mul]

lemma c1_upB0_clamp :
    (exBg.velocity.add exBg.acceleration).clampLength 0 MAX_SPEED = ax (13/200) := by
  norm_num [exBg, ax_add, ax_clampLength, MAX_SPEED, abs_neg, abs_of_nonneg]

lemma c1_upB0_pos :
    (update bounds25min bounds25max exBg).position = ax (413/200) := by
  unfold update
  dsimp only
  rw [c1_upB0_clamp]
  norm_num [exBg, bounds25min, bounds25max, reflectAxis, ax_add, ax, Vec3.add]

lemma c1_tick_eval :
    ((tick bounds25min bounds25max [exA, exB]).getD 1 boidDefault).position.x =
      387 / 200 := by
  have hlen : [exA, exB].length = 2 := rfl
  have hr : List.range 2 = [0, 1] := by decide
  unfold tick
  rw [hlen, hr]
  simp only [List.foldl_cons, List.foldl_nil, List.getD_cons_zero]
  rw [c1_flock_A]
  simp only [List.set_cons_zero, List.set_cons_succ, List.getD_cons_zero,
    List.getD_cons_succ]
  rw [c1_flock_B]
  rw [c1_upB_pos]
  norm_num [ax]

lemma c1_twoPhase_eval :
    ((twoPhaseTickSpec bounds25min bounds25max [exA, exB]).getD 1 boidDefault).position.x =
      413 / 200 := by
  unfold twoPhaseTickSpec
  simp only [List.map_cons, List.map_nil]
  rw [c1_flock_A, c1_flock_B0]
  simp only [List.getD_cons_zero, List.getD_cons_succ, List.map_cons, List.map_nil]
  rw [c1_upB0_pos]
  norm_num [ax]

/-- C1 counterexample: the render loop interleaves force accumulation and
integration, so it is not the two-phase tick the claim describes.  With boid A
at the origin and boid B at `(2,0,0)`, both at rest inside the default bounds,
the second boid's flocking forces read the first boid's already-updated
position and velocity: the loop puts B at `x = 387/200` while the claimed
read-everything-then-integrate schedule would put it at `x = 413/200`. -/
theorem tick_reads_updated_sibling_cex :
    tick bounds25min bounds25max [exA, exB] ≠
      twoPhaseTickSpec bounds25min bounds25max [exA, exB] := by
  intro h
  have h2 := congrArg (fun l => (l.getD 1 boidDefault).position.x) h
  dsimp only at h2
  rw [c1_tick_eval, c1_twoPhase_eval] at h2
  norm_num at h2

lemma getD_append_len (l₁ l₂ : List Boid) (b d : Boid) :
    (l₁ ++ b :: l₂).getD l₁.length d = b := by
  induction l₁ with
  | nil => rfl
  | cons a t ih => simpa using ih

lemma set_append_len (l₁ l₂ : List Boid) (b c : Boid) :
    (l₁ ++ b :: l₂).set l₁.length c = l₁ ++ c :: l₂ := by
  induction l₁ with
  | nil => rfl
  | cons a t ih => simp [ih]

lemma tick_go_aux (bmin bmax : Vec3) (todo done : List Boid) :
    (List.range' done.length todo.length).foldl
        (fun arr i => arr.set i (update bmin bmax (flock (arr.getD i boidDefault) arr)))
        (done ++ todo) =
      tickGo bmin bmax done todo := by
  induction todo generalizing done with
  | nil => simp [tickGo]
  | cons b rest ih =>
      simp only [List.length_cons]
      rw [List.range'_succ]
      simp only [List.foldl_cons]
      rw [getD_append_len, set_append_len]
      have h1 : done ++ update bmin bmax (flock b (done ++ b :: rest)) :: rest =
          (done ++ [update bmin bmax (flock b (done ++ b :: rest))]) ++ rest := by
        simp
      have h2 : done.length + 1 =
          (done ++ [update bmin bmax (flock b (done ++ b :: rest))]).length := by
        simp
      rw [h1, h2, ih]
      conv_rhs => rw [tickGo]

/-- C1 (amended): the loop processes agents strictly in array order, and each
agent's separation/alignment/cohesion forces are accumulated before its own
integration; but force accumulation across the population is *not* completed
before integration begins — agent `i`'s force pass reads the post-update state
of agents `0..i-1` (the already-updated prefix `done`) together with the
pre-update state of agents `i..n-1` (the untouched suffix `todo`). -/
theorem tick_eq_tickGo (bmin bmax : Vec3) (bs : List Boid) :
    tick bmin bmax bs = tickGo bmin bmax [] bs := by
  have h := tick_go_aux bmin bmax bs []
  simpa [tick, List.range_eq_range'] using h

lemma Vec3.add_zero' (v : Vec3) : v.add vzero = v := by
  unfold Vec3.add vzero
  cases v
  simp

lemma Vec3.zero_add' (v : Vec3) : vzero.add v = v := by
  unfold Vec3.add vzero
  cases v
  simp

lemma Vec3.add_assoc' (a b c : Vec3) : (a.add b).add c = a.add (b.add c) := by
  unfold Vec3.add
  refine Vec3.eq_of _ _ ?_ ?_ ?_ <;> · dsimp only; ring

lemma vzero_length : vzero.length = 0 := by
  rw [vzero_eq_ax, ax_length]
  norm_num

lemma Vec3.length_pos_iff (v : Vec3) : 0 < v.length ↔ v ≠ vzero := by
  constructor
  · intro h hz
    rw [(Vec3.length_eq_zero_iff v).2 hz] at h
    exact lt_irrefl _ h
  · intro h
    rcases lt_or_eq_of_le (Vec3.length_nonneg v) with h1 | h1
    · exact h1
    · exact absurd ((Vec3.length_eq_zero_iff v).1 h1.symm) h

lemma Vec3.setLength_eq_rescale {v : Vec3} (h : v ≠ vzero) (m : ℝ) :
    v.setLength m = rescaleSpec v m := by
  unfold Vec3.setLength Vec3.normalize rescaleSpec
  rw [if_neg (fun h0 => h ((Vec3.length_eq_zero_iff v).1 h0))]

lemma Vec3.clampLength_zero_eq (v : Vec3) {m : ℝ} (hm : 0 ≤ m) :
    v.clampLength 0 m = clampMagSpec v m := by
  unfold Vec3.clampLength clampMagSpec
  by_cases h0 : v.length = 0
  · have hv : v = vzero := (Vec3.length_eq_zero_iff v).1 h0
    rw [if_pos h0, h0, hv]
    rw [if_neg (by simp [vzero_eq_ax, ax_length]; linarith)]
    unfold vzero Vec3.divideScalar Vec3.multiplyScalar
    simp
  · have hl : 0 < v.length := lt_of_le_of_ne (Vec3.length_nonneg v) (Ne.symm h0)
    rw [if_neg h0]
    by_cases hlt : m < v.length
    · rw [if_pos hlt]
      have hc : max 0 (min m v.length) = m := by
        rw [min_eq_left (le_of_lt hlt), max_eq_right hm]
      rw [hc]
      unfold Vec3.divideScalar Vec3.multiplyScalar
      refine Vec3.eq_of _ _ ?_ ?_ ?_ <;> · dsimp only; ring
    · rw [if_neg hlt]
      have hc : max 0 (min m v.length) = v.length := by
        rw [min_eq_right (le_of_not_lt hlt), max_eq_right (Vec3.length_nonneg v)]
      rw [hc]
      unfold Vec3.divideScalar Vec3.multiplyScalar
      refine Vec3.eq_of _ _ ?_ ?_ ?_ <;> · dsimp only; field_simp

lemma sep_fold (b : Boid) (l : List Boid) : ∀ s : Vec3, ∀ c : ℕ,
    l.foldl (sepStep b) (s, c) =
      (s.add (vsum ((l.filter (sepQualify b)).map (fun o =>
          ((b.position.sub o.position).normalize).divideScalar
            (b.position.distanceTo o.position)))),
        c + (l.filter (sepQualify b)).length) := by
  induction l with
  | nil =>
      intro s c
      simp [vsum, Vec3.add_zero']
  | cons o t ih =>
      intro s c
      by_cases hq : o.id ≠ b.id ∧ b.position.distanceTo o.position < DESIRED_SEPARATION
      · have hqb : sepQualify b o = true := by
          unfold sepQualify
          exact decide_eq_true hq
        have hstep : sepStep b (s, c) o =
            (s.add (((b.position.sub o.position).normalize).divideScalar
              (b.position.distanceTo o.position)), c + 1) := by
          unfold sepStep
          rw [if_pos hq]
        simp only [List.foldl_cons, List.filter_cons, hqb, if_true]
        rw [hstep, ih]
        simp only [List.map_cons, vsum, List.foldr_cons, Prod.mk.injEq]
        constructor
        · rw [Vec3.add_assoc']
        · simp only [List.length_cons]
          omega
      · have hqb : sepQualify b o = false := by
          unfold sepQualify
          simpa using hq
        have hstep : sepStep b (s, c) o = (s, c) := by
          unfold sepStep
          rw [if_neg hq]
        simp only [List.foldl_cons, List.filter_cons, hqb]
        rw [hstep, ih]
        simp

/-- C4 (amended): whenever every qualifying neighbor is at non-zero distance,
`separation` computes exactly the claim's pipeline with the per-neighbor term
`(self.position - other.position) / distance²` — repulsion weighted inversely
by distance (magnitude `1/d`), accumulated, averaged by neighbor count, then
conditionally rescaled to `MAX_SPEED`, velocity-subtracted and clamped to
`[0, MAX_FORCE]`; the zero vector when no neighbor qualifies. -/
theorem separation_eq_invDist (b : Boid) (boids : List Boid)
    (hpos : ∀ o ∈ boids, o.id ≠ b.id →
      b.position.distanceTo o.position < DESIRED_SEPARATION →
      b.position.distanceTo o.position ≠ 0) :
    separation b boids = separationInvDistSpec b boids := by
  have hterm : (boids.filter (sepQualify b)).map
        (fun o => ((b.position.sub o.position).normalize).divideScalar
          (b.position.distanceTo o.position)) =
      (boids.filter (sepQualify b)).map
        (fun o => (b.position.sub o.position).divideScalar
          (b.position.distanceTo o.position ^ 2)) := by
    apply List.map_congr_left
    intro o ho
    have hmem : o ∈ boids := List.mem_of_mem_filter ho
    have hq : sepQualify b o = true := List.of_mem_filter ho
    rw [sepQualify, decide_eq_true_eq] at hq
    have hd : b.position.distanceTo o.position ≠ 0 := hpos o hmem hq.1 hq.2
    have hlen : (b.position.sub o.position).length ≠ 0 := hd
    unfold Vec3.normalize Vec3.distanceTo
    rw [if_neg hlen]
    unfold Vec3.divideScalar Vec3.multiplyScalar
    refine Vec3.eq_of _ _ ?_ ?_ ?_ <;>
      · dsimp only
        rw [mul_assoc, div_mul_div_comm, one_mul, ← pow_two]
  unfold separation separationInvDistSpec
  rw [sep_fold b boids vzero 0, hterm]
  dsimp only
  simp only [Nat.zero_add]
  by_cases hempty : boids.filter (sepQualify b) = []
  · rw [hempty]
    simp [vsum, Vec3.add_zero', vzero_length]
  · have hne : (boids.filter (sepQualify b)).isEmpty = false := by
      simpa [List.isEmpty_iff] using hempty
    have hlenpos : 0 < (boids.filter (sepQualify b)).length :=
      List.length_pos.2 hempty
    rw [if_pos hlenpos, Vec3.zero_add']
    simp only [hne, Bool.false_eq_true, if_false, Nat.zero_add]
    set A := (vsum ((boids.filter (sepQualify b)).map
      (fun o => (b.position.sub o.position).divideScalar
        (b.position.distanceTo o.position ^ 2)))).divideScalar
      ((boids.filter (sepQualify b)).length : ℝ) with hA
    by_cases hz : A = vzero
    · rw [if_pos hz]
      rw [if_neg]
      rw [hz]
      simp [vzero_eq_ax, ax_length]
    · rw [if_neg hz, if_pos ((Vec3.length_pos_iff A).2 hz)]
      rw [Vec3.setLength_eq_rescale hz]
      exact Vec3.clampLength_zero_eq _ (by norm_num [MAX_FORCE])

lemma c4_sep_src : separation exA [exB, exE] = ax (13/100) := by
  unfold separation sepStep
  simp only [List.foldl_cons, List.foldl_nil]
  norm_num [exA, exB, exE, ax_distanceTo, ax_sub, ax_add, ax_mul, ax_div, ax_length,
    ax_normalize, ax_setLength, ax_clampLength, vzero_eq_ax, DESIRED_SEPARATION,
    MAX_SPEED, MAX_FORCE, abs_of_nonneg, abs_of_pos, abs_neg]

lemma c4_sep_claimed : separationClaimedSpec exA [exB, exE] = vzero := by
  unfold separationClaimedSpec
  have h1 : sepQualify exA exB = true := by
    unfold sepQualify
    rw [decide_eq_true_eq]
    norm_num [exA, exB, ax_distanceTo, DESIRED_SEPARATION]
  have h2 : sepQualify exA exE = true := by
    unfold sepQualify
    rw [decide_eq_true_eq]
    norm_num [exA, exE, ax_distanceTo, DESIRED_SEPARATION]
  simp only [List.filter_cons, h1, h2, if_true, List.filter_nil]
  have havg : (vsum (List.map (fun o =>
        (exA.position.sub o.position).divideScalar
          (exA.position.distanceTo o.position)) [exB, exE])).divideScalar
      (([exB, exE] : List Boid).length : ℝ) = vzero := by
    simp only [List.map_cons, List.map_nil, vsum, List.foldr_cons, List.foldr_nil]
    norm_num [exA, exB, exE, ax_distanceTo, ax_sub, ax_add, ax_div, ax_mul,
      vzero_eq_ax, abs_of_nonneg, abs_of_pos, abs_neg]
  rw [List.isEmpty_cons]
  simp only [Bool.false_eq_true, if_false]
  rw [havg, if_pos rfl]

/-- C4 counterexample: the claim's literal term `(self - other) / distance` is
not what the code accumulates.  With the calling boid at the origin and
neighbors at `(2,0,0)` (distance 2) and `(-1,0,0)` (distance 1), the source
returns `(0.13, 0, 0)` while the claim's formula yields the zero vector (its
unnormalized terms cancel exactly). -/
theorem separation_claimed_formula_cex :
    separation exA [exB, exE] ≠ separationClaimedSpec exA [exB, exE] := by
  rw [c4_sep_src, c4_sep_claimed]
  intro h
  have hx := congrArg Vec3.x h
  norm_num [ax, vzero] at hx

theorem separation_eq_invDist_witness :
    (∀ o ∈ [exB], o.id ≠ exA.id →
      exA.position.distanceTo o.position < DESIRED_SEPARATION →
      exA.position.distanceTo o.position ≠ 0) ∧
    separation exA [exB] = separationInvDistSpec exA [exB] := by
  have h : ∀ o ∈ [exB], o.id ≠ exA.id →
      exA.position.distanceTo o.position < DESIRED_SEPARATION →
      exA.position.distanceTo o.position ≠ 0 := by
    intro o ho
    simp only [List.mem_singleton] at ho
    subst ho
    intro h1 h2
    norm_num [exA, exB, ax_distanceTo]
  exact ⟨h, separation_eq_invDist exA [exB] h⟩

/-- C10 (amended): `separation` returns a well-defined finite vector for every
neighbor list in which each qualifying neighbor sits at strictly positive
distance; under that hypothesis the instrumented loop never divides by a zero
distance and agrees with `separation`.  (A coincident neighbor, by contrast,
passes the strict `< DESIRED_SEPARATION` test and triggers the unguarded
division — see the counterexample.) -/
theorem separationChecked_eq_some (b : Boid) (boids : List Boid)
    (hpos : ∀ o ∈ boids, o.id ≠ b.id →
      b.position.distanceTo o.position < DESIRED_SEPARATION →
      b.position.distanceTo o.position ≠ 0) :
    separationChecked b boids = some (separation b boids) := by
  have hfold : ∀ l : List Boid, (∀ o ∈ l, o.id ≠ b.id →
      b.position.distanceTo o.position < DESIRED_SEPARATION →
      b.position.distanceTo o.position ≠ 0) → ∀ s : Vec3, ∀ c : ℕ,
      l.foldl (sepStepChecked b) (some (s, c)) = some (l.foldl (sepStep b) (s, c)) := by
    intro l
    induction l with
    | nil => intro _ s c; rfl
    | cons o t ih =>
        intro hl s c
        by_cases hq : o.id ≠ b.id ∧
            b.position.distanceTo o.position < DESIRED_SEPARATION
        · have hd : b.position.distanceTo o.position ≠ 0 :=
            hl o (List.mem_cons_self o t) hq.1 hq.2
          have hstep : sepStepChecked b (some (s, c)) o =
              some (sepStep b (s, c) o) := by
            unfold sepStepChecked sepStep
            dsimp only
            rw [if_pos hq, if_pos hq, if_neg hd]
          rw [List.foldl_cons, List.foldl_cons, hstep]
          exact ih (fun o' ho' => hl o' (List.mem_cons_of_mem o ho')) _ _
        · have hstep : sepStepChecked b (some (s, c)) o =
              some (sepStep b (s, c) o) := by
            unfold sepStepChecked sepStep
            dsimp only
            rw [if_neg hq, if_neg hq]
          rw [List.foldl_cons, List.foldl_cons, hstep]
          exact ih (fun o' ho' => hl o' (List.mem_cons_of_mem o ho')) _ _
  unfold separationChecked separation
  rw [hfold boids hpos vzero 0]

/-- C10 counterexample: with a second boid at exactly the caller's position
(distinct object, distance `0 < DESIRED_SEPARATION`), the per-neighbor division
by the distance executes with a zero divisor — the division is *not* guarded,
and in IEEE arithmetic the returned steering vector has `NaN` components. -/
theorem separation_coincident_unguarded_cex : separationChecked exA [exF] = none := by
  have hq : exF.id ≠ exA.id ∧
      exA.position.distanceTo exF.position < DESIRED_SEPARATION := by
    norm_num [exA, exF, ax_distanceTo, DESIRED_SEPARATION]
  have hd : exA.position.distanceTo exF.position = 0 := by
    norm_num [exA, exF, ax_distanceTo]
  have hstep : sepStepChecked exA (some (vzero, 0)) exF = none := by
    unfold sepStepChecked
    dsimp only
    rw [if_pos hq, if_pos hd]
  unfold separationChecked
  rw [List.foldl_cons, hstep, List.foldl_nil]

theorem separationChecked_eq_some_witness :
    (∀ o ∈ [exB], o.id ≠ exA.id →
      exA.position.distanceTo o.position < DESIRED_SEPARATION →
      exA.position.distanceTo o.position ≠ 0) ∧
    separationChecked exA [exB] = some (separation exA [exB]) := by
  have h : ∀ o ∈ [exB], o.id ≠ exA.id →
      exA.position.distanceTo o.position < DESIRED_SEPARATION →
      exA.position.distanceTo o.position ≠ 0 := by
    intro o ho
    simp only [List.mem_singleton] at ho
    subst ho
    intro h1 h2
    norm_num [exA, exB, ax_distanceTo]
  exact ⟨h, separationChecked_eq_some exA [exB] h⟩

lemma Vec3.normalize_vzero : vzero.normalize = vzero := by
  rw [vzero_eq_ax]
  exact ax_normalize_zero

lemma setFromUnitVectors_up_zero :
    Quat.setFromUnitVectors ⟨0, 1, 0⟩ vzero = idQuat := by
  unfold Quat.setFromUnitVectors Quat.normalize Vec3.dot vzero numEPSILON idQuat
  norm_num [Real.sqrt_one]

/-- C6 (amended): under both boundary policies — `update` (reflect) and
`updateWithWrap` (wrap) — when the boid's final velocity is zero at
orientation-derivation time, the guarded `normalize()` yields the zero vector
and `setFromUnitVectors(up, 0)` sets the mesh quaternion to the *identity* — a
well-defined value that is never produced by normalizing garbage, but one that
overwrites the previous orientation rather than holding it. -/
theorem update_zero_velocity_quat_identity (bmin bmax : Vec3) (b : Boid) :
    ((update bmin bmax b).velocity = vzero → (update bmin bmax b).quat = idQuat) ∧
    ((updateWithWrap bmin bmax b).velocity = vzero →
      (updateWithWrap bmin bmax b).quat = idQuat) := by
  constructor
  · intro h
    unfold update at h ⊢
    dsimp only at h ⊢
    rw [h, Vec3.normalize_vzero, setFromUnitVectors_up_zero]
  · intro h
    unfold updateWithWrap at h ⊢
    dsimp only at h ⊢
    rw [h, Vec3.normalize_vzero, setFromUnitVectors_up_zero]

/-- C6 counterexample: the orientation is *not* left unchanged.  A resting
boid whose quaternion holds a previous valid value (here a half-turn about x)
leaves `update` with the identity quaternion instead of that value. -/
theorem update_zero_velocity_overwrites_quat_cex :
    (update bounds25min bounds25max exQ).quat ≠ exQ.quat := by
  have hclamp : (exQ.velocity.add exQ.acceleration).clampLength 0 MAX_SPEED = ax 0 := by
    norm_num [exQ, ax_add, ax_clampLength_zero]
  have hvel : (update bounds25min bounds25max exQ).velocity = vzero := by
    unfold update
    dsimp only
    rw [hclamp]
    norm_num [exQ, bounds25min, bounds25max, reflectAxis, ax_add, ax, Vec3.add, vzero]
  have hquat : (update bounds25min bounds25max exQ).quat = idQuat := by
    unfold update at hvel ⊢
    dsimp only at hvel ⊢
    rw [hvel, Vec3.normalize_vzero, setFromUnitVectors_up_zero]
  rw [hquat]
  simp only [exQ, idQuat, ne_eq, Quat.mk.injEq]
  norm_num

theorem update_zero_velocity_quat_identity_witness :
    ((update bounds25min bounds25max exA).velocity = vzero ∧
      (update bounds25min bounds25max exA).quat = idQuat) ∧
    ((updateWithWrap bounds25min bounds25max exA).velocity = vzero ∧
      (updateWithWrap bounds25min bounds25max exA).quat = idQuat) := by
  have hclamp : (exA.velocity.add exA.acceleration).clampLength 0 MAX_SPEED = ax 0 := by
    norm_num [exA, ax_add, ax_clampLength_zero]
  have hvel : (update bounds25min bounds25max exA).velocity = vzero := by
    unfold update
    dsimp only
    rw [hclamp]
    norm_num [exA, bounds25min, bounds25max, reflectAxis, ax_add, ax, Vec3.add, vzero]
  have hvelw : (updateWithWrap bounds25min bounds25max exA).velocity = vzero := by
    unfold updateWithWrap
    dsimp only
    rw [hclamp]
    exact vzero_eq_ax.symm
  exact ⟨⟨hvel, (update_zero_velocity_quat_identity bounds25min bounds25max exA).1 hvel⟩,
    ⟨hvelw, (update_zero_velocity_quat_identity bounds25min bounds25max exA).2 hvelw⟩⟩

lemma avoid_aux (radius strength : ℝ) (centers : List Vec3) : ∀ b : Boid,
    (avoidObstacles radius strength b centers).id = b.id ∧
    (avoidObstacles radius strength b centers).position = b.position ∧
    (avoidObstacles radius strength b centers).velocity = b.velocity ∧
    (avoidObstacles radius strength b centers).quat = b.quat ∧
    (avoidObstacles radius strength b centers).acceleration =
      b.acceleration.add (vsum (centers.map (fun c =>
        if b.position.distanceTo c < radius then
          (b.position.sub c).normalize.multiplyScalar strength
        else vzero))) := by
  induction centers with
  | nil =>
      intro b
      refine ⟨rfl, rfl, rfl, rfl, ?_⟩
      simp only [avoidObstacles, List.foldl_nil, List.map_nil, vsum, List.foldr_nil]
      exact (Vec3.add_zero' _).symm
  | cons c t ih =>
      intro b
      by_cases hlt : b.position.distanceTo c < radius
      · have hstep : avoidObstacles radius strength b (c :: t) =
            avoidObstacles radius strength
              (applyForce b ((b.position.sub c).normalize.multiplyScalar strength)) t := by
          unfold avoidObstacles
          rw [List.foldl_cons, if_pos hlt]
        obtain ⟨h1, h2, h3, h4, h5⟩ :=
          ih (applyForce b ((b.position.sub c).normalize.multiplyScalar strength))
        rw [hstep]
        refine ⟨h1, h2, h3, h4, ?_⟩
        rw [h5]
        simp only [applyForce]
        rw [Vec3.add_assoc']
        simp only [List.map_cons, vsum, List.foldr_cons, if_pos hlt]
      · have hstep : avoidObstacles radius strength b (c :: t) =
            avoidObstacles radius strength b t := by
          unfold avoidObstacles
          rw [List.foldl_cons, if_neg hlt]
        obtain ⟨h1, h2, h3, h4, h5⟩ := ih b
        rw [hstep]
        refine ⟨h1, h2, h3, h4, ?_⟩
        rw [h5]
        simp only [List.map_cons, vsum, List.foldr_cons, if_neg hlt]
        rw [Vec3.zero_add']

lemma repel_dot_nonneg {s : ℝ} (hs : 0 ≤ s) (v : Vec3) :
    0 ≤ (v.normalize.multiplyScalar s).dot v := by
  unfold Vec3.normalize Vec3.divideScalar Vec3.multiplyScalar Vec3.dot
  dsimp only
  have h : ∀ L : ℝ, 0 < L →
      0 ≤ v.x * (1 / L) * s * v.x + v.y * (1 / L) * s * v.y +
        v.z * (1 / L) * s * v.z := by
    intro L hL
    have heq : v.x * (1 / L) * s * v.x + v.y * (1 / L) * s * v.y +
        v.z * (1 / L) * s * v.z = s / L * (v.x * v.x + v.y * v.y + v.z * v.z) := by
      ring
    rw [heq]
    have hsq : 0 ≤ v.x * v.x + v.y * v.y + v.z * v.z := by
      have := Vec3.lengthSq_nonneg v
      unfold Vec3.lengthSq at this
      exact this
    exact mul_nonneg (div_nonneg hs hL.le) hsq
  split_ifs with h0
  · exact h 1 one_pos
  · exact h v.length (lt_of_le_of_ne (Vec3.length_nonneg v) (Ne.symm h0))

/-- C7: for every obstacle center within the avoidance radius,
`avoidObstacles` adds a repulsive force — one whose dot product with the
away-from-obstacle direction is never negative, so it repels, never attracts —
directly into the acceleration, preserving (not nulling) whatever forces were
already accumulated there, and touching nothing else of the boid's state. -/
theorem avoidObstacles_repels_and_preserves (radius strength : ℝ) (b : Boid)
    (centers : List Vec3) (hs : 0 ≤ strength) :
    (avoidObstacles radius strength b centers).id = b.id ∧
    (avoidObstacles radius strength b centers).position = b.position ∧
    (avoidObstacles radius strength b centers).velocity = b.velocity ∧
    (avoidObstacles radius strength b centers).quat = b.quat ∧
    (avoidObstacles radius strength b centers).acceleration =
      b.acceleration.add (vsum (centers.map (fun c =>
        if b.position.distanceTo c < radius then
          (b.position.sub c).normalize.multiplyScalar strength
        else vzero))) ∧
    (∀ c : Vec3,
      0 ≤ ((b.position.sub c).normalize.multiplyScalar strength).dot
        (b.position.sub c)) := by
  obtain ⟨h1, h2, h3, h4, h5⟩ := avoid_aux radius strength centers b
  exact ⟨h1, h2, h3, h4, h5, fun c => repel_dot_nonneg hs _⟩

theorem avoidObstacles_repels_witness :
    (0 : ℝ) ≤ 1 ∧
    ((avoidObstacles 5 1 boidDefault [ax 2]).id = boidDefault.id ∧
      (avoidObstacles 5 1 boidDefault [ax 2]).position = boidDefault.position ∧
      (avoidObstacles 5 1 boidDefault [ax 2]).velocity = boidDefault.velocity ∧
      (avoidObstacles 5 1 boidDefault [ax 2]).quat = boidDefault.quat ∧
      (avoidObstacles 5 1 boidDefault [ax 2]).acceleration =
        boidDefault.acceleration.add (vsum (([ax 2] : List Vec3).map (fun c =>
          if boidDefault.position.distanceTo c < 5 then
            (boidDefault.position.sub c).normalize.multiplyScalar 1
          else vzero))) ∧
      (∀ c : Vec3,
        0 ≤ ((boidDefault.position.sub c).normalize.multiplyScalar 1).dot
          (boidDefault.position.sub c))) :=
  ⟨by norm_num,
    avoidObstacles_repels_and_preserves 5 1 boidDefault [ax 2] (by norm_num)⟩

lemma lerp_mem {a b : ℝ} (h : a ≤ b) {t : ℝ} (h0 : 0 ≤ t) (h1 : t ≤ 1) :
    a ≤ lerp a b t ∧ lerp a b t ≤ b := by
  unfold lerp
  constructor <;> nlinarith

lemma Vec3.normalize_length_one {v : Vec3} (h : v ≠ vzero) :
    v.normalize.length = 1 := by
  unfold Vec3.normalize
  have h0 : v.length ≠ 0 := fun hh => h ((Vec3.length_eq_zero_iff v).1 hh)
  have hl : 0 < v.length := lt_of_le_of_ne (Vec3.length_nonneg v) (Ne.symm h0)
  rw [if_neg h0]
  unfold Vec3.divideScalar
  rw [Vec3.length_multiplyScalar, abs_of_pos (by positivity)]
  field_simp

/-- C8 (amended): for well-formed bounds and draws in `[0,1]`, the constructor
places each position coordinate inside the bounds (the affine lerp of the
uniform draw), and — provided the three direction draws are not all exactly
`0.5` — the velocity is a unit direction scaled to `MAX_SPEED`, so its
magnitude is exactly `MAX_SPEED`.  In the measure-zero all-`0.5` outcome the
guarded `normalize()` leaves the zero vector and the velocity is zero instead
(see the counterexample). -/
theorem boidNew_valid (bmin bmax : Vec3) (i : ℕ) (r1 r2 r3 r4 r5 r6 : ℝ)
    (hx : bmin.x ≤ bmax.x) (hy : bmin.y ≤ bmax.y) (hz : bmin.z ≤ bmax.z)
    (h10 : 0 ≤ r1) (h11 : r1 ≤ 1) (h20 : 0 ≤ r2) (h21 : r2 ≤ 1)
    (h30 : 0 ≤ r3) (h31 : r3 ≤ 1)
    (hv : Vec3.mk (r4 - 1 / 2) (r5 - 1 / 2) (r6 - 1 / 2) ≠ vzero) :
    posInBounds bmin bmax (boidNew bmin bmax i r1 r2 r3 r4 r5 r6) ∧
    (boidNew bmin bmax i r1 r2 r3 r4 r5 r6).velocity.length = MAX_SPEED := by
  constructor
  · unfold posInBounds inClosed boidNew
    dsimp only
    exact ⟨lerp_mem hx h10 h11, lerp_mem hy h20 h21, lerp_mem hz h30 h31⟩
  · unfold boidNew
    dsimp only
    rw [Vec3.length_multiplyScalar, Vec3.normalize_length_one hv, mul_one]
    norm_num [MAX_SPEED]

/-- C8 counterexample: the claim's "for every outcome of the random draws" is
false — when all three direction draws are exactly `0.5`, the pre-normalization
vector is zero, three.js's guarded `normalize()` returns it unchanged, and the
constructed velocity has magnitude `0`, not `MAX_SPEED`. -/
theorem boidNew_center_draw_cex :
    (boidNew bounds25min bounds25max 0 0 0 0 (1/2) (1/2) (1/2)).velocity.length ≠
      MAX_SPEED := by
  unfold boidNew
  dsimp only
  have hv : Vec3.mk ((1:ℝ)/2 - 1/2) ((1:ℝ)/2 - 1/2) ((1:ℝ)/2 - 1/2) = vzero := by
    norm_num [vzero]
  rw [hv, Vec3.normalize_vzero, Vec3.length_multiplyScalar, vzero_length, mul_zero]
  norm_num [MAX_SPEED]

theorem boidNew_valid_witness :
    (bounds25min.x ≤ bounds25max.x ∧ bounds25min.y ≤ bounds25max.y ∧
      bounds25min.z ≤ bounds25max.z ∧ (0:ℝ) ≤ 0 ∧ (0:ℝ) ≤ 1 ∧ (0:ℝ) ≤ 1 ∧
      (1:ℝ) ≤ 1 ∧ (0:ℝ) ≤ 1/2 ∧ (1:ℝ)/2 ≤ 1 ∧
      Vec3.mk ((1:ℝ) - 1 / 2) ((1:ℝ)/2 - 1 / 2) ((1:ℝ)/2 - 1 / 2) ≠ vzero) ∧
    (posInBounds bounds25min bounds25max
        (boidNew bounds25min bounds25max 0 0 1 (1/2) 1 (1/2) (1/2)) ∧
      (boidNew bounds25min bounds25max 0 0 1 (1/2) 1 (1/2) (1/2)).velocity.length =
        MAX_SPEED) := by
  have hv : Vec3.mk ((1:ℝ) - 1 / 2) ((1:ℝ)/2 - 1 / 2) ((1:ℝ)/2 - 1 / 2) ≠ vzero := by
    intro h
    have hx := congrArg Vec3.x h
    norm_num [vzero] at hx
  refine ⟨⟨?_, ?_, ?_, by norm_num, by norm_num, by norm_num, by norm_num,
      by norm_num, by norm_num, hv⟩, ?_⟩
  · norm_num [bounds25min, bounds25max]
  · norm_num [bounds25min, bounds25max]
  · norm_num [bounds25min, bounds25max]
  · exact boidNew_valid bounds25min bounds25max 0 0 1 (1/2) 1 (1/2) (1/2)
      (by norm_num [bounds25min, bounds25max]) (by norm_num [bounds25min, bounds25max])
      (by norm_num [bounds25min, bounds25max]) (by norm_num) (by norm_num)
      (by norm_num) (by norm_num) (by norm_num) (by norm_num) hv

end
